import Mathlib

/-!
Verification of the chess-poker session server (`src/server.ts`).

The TypeScript source is shallowly embedded: each REST / WebSocket handler
becomes a pure Lean function on an explicit `GameState` (and, for the
broadcast paths, a connection-registry list).  JavaScript runtime behaviour
is modelled explicitly:

* `deck.pop()` removes the LAST element of the array (`drawCard` below);
  `deck.splice(0, 3)` removes the FIRST three (`dealCards`).
* `board[y]` with `y` outside `0..7` yields `undefined`, and any further
  index or assignment on it throws a `TypeError`; this is the `none` case of
  the `Option`-valued handlers.  `board[y][x]` with `y` in range but `x` out
  of range yields `undefined`, which the source treats exactly like an empty
  cell (`null`), so both collapse to `Option.none` in `cellGet`.
* JS `Map` preserves insertion order; the connection registry is a list of
  key/value pairs with `Map.set` / `Map.delete` semantics.
-/

/-- `suit ∈ {hearts, diamonds, clubs, spades}` from the `Card` interface. -/
inductive Suit
  | hearts | diamonds | clubs | spades
deriving DecidableEq

/-- `value: number | 'J' | 'Q' | 'K' | 'A'` from the `Card` interface. -/
inductive CardValue
  | num (n : Nat)
  | J | Q | K | A
deriving DecidableEq

/-- `Card` interface: `{suit, value, revealed}`. -/
structure Card where
  suit : Suit
  value : CardValue
  revealed : Bool
deriving DecidableEq

inductive Color
  | white | black
deriving DecidableEq

inductive PieceType
  | pawn | rook | knight | bishop | queen | king
deriving DecidableEq

/-- `ChessPiece` interface; `position` is stored as `(x, y)`. -/
structure ChessPiece where
  type : PieceType
  color : Color
  position : Int × Int
  card : Option Card := none
deriving DecidableEq

inductive Status
  | waiting | active | finished
deriving DecidableEq

/-- One board row; a cell is `none` when the source holds `null`. -/
abbrev Row := List (Option ChessPiece)

abbrev Board := List Row

/-- `GameState` interface.  The `players` object is flattened into its two
optional slots. -/
structure GameState where
  id : String
  whitePlayer : Option String
  blackPlayer : Option String
  board : Board
  communityCards : List Card
  currentTurn : Color
  deck : List Card
  status : Status
deriving DecidableEq

/-- `Move` interface: `{from, to, playerId}`. -/
structure Move where
  fromX : Int
  fromY : Int
  toX : Int
  toY : Int
  playerId : String
deriving DecidableEq

/-- `GameUpdate` payloads actually emitted by the source (`GAME_END` has no
emitting site). -/
inductive GameUpdate
  | MOVE (src dst : Int × Int) (piece : ChessPiece)
  | CARD_PLAY (piecePosition : Int × Int) (card : Card)
  | PLAYER_JOINED (playerId : String)
  | PLAYER_DISCONNECTED (playerId : String)
deriving DecidableEq

/-! ## Deck primitives -/

/-- `deck.pop()`: removes and returns the LAST element of the array;
on an empty array it returns `undefined` and leaves the array unchanged. -/
def drawCard (d : List Card) : Option (Card × List Card) :=
  match d.getLast? with
  | none => none
  | some c => some (c, d.dropLast)

/-- `deck.splice(0, n)`: removes the FIRST `n` elements (fewer if the deck is
shorter) and returns them in order, paired with the remaining deck. -/
def dealCards (n : Nat) (d : List Card) : List Card × List Card :=
  (d.take n, d.drop n)

/-! ## Board primitives -/

/-- `board[y]`: `some row` when `0 ≤ y < board.length`, otherwise `none`
(JS `undefined`; indexing into it throws). -/
def rowGet (b : Board) (y : Int) : Option Row :=
  if 0 ≤ y then b.get? y.toNat else none

/-- `row[x]` read as a piece: an out-of-range `x` yields `undefined`, which
the source only ever tests for truthiness, so it is identified with an empty
cell (`null`). -/
def cellGet (r : Row) (x : Int) : Option ChessPiece :=
  if 0 ≤ x then (r.get? x.toNat).join else none

/-- `board[y][x]` as a read: `none` models the `TypeError` thrown when
`board[y]` is `undefined`. -/
def boardGet (b : Board) (x y : Int) : Option (Option ChessPiece) :=
  match rowGet b y with
  | none => none
  | some r => some (cellGet r x)

/-- `row[x] = v`.  For in-range `x` the cell is overwritten.  An out-of-range
`x` makes JS store an extra slot/property that no in-range read (the only
reads the source performs on live rows) can observe, so the row is modelled
as unchanged. -/
def rowSet (r : Row) (x : Int) (v : Option ChessPiece) : Row :=
  if 0 ≤ x then r.set x.toNat v else r

/-- `board[y][x] = v`: throws (`none`) when `board[y]` is `undefined`,
i.e. when `y` is out of range. -/
def boardSet (b : Board) (x y : Int) (v : Option ChessPiece) : Option Board :=
  match rowGet b y with
  | none => none
  | some r =>
    if 0 ≤ y then some (b.set y.toNat (rowSet r x v)) else none

/-! ## `createInitialBoard` -/

/-- `pieceOrder` from `createInitialBoard`. -/
def pieceOrder : List PieceType :=
  [.rook, .knight, .bishop, .queen, .king, .bishop, .knight, .rook]

/-- One back row: `{type: pieceOrder[x], color, position: {x, y}}`. -/
def majorRow (c : Color) (y : Int) : Row :=
  (List.range 8).map fun x =>
    some { type := pieceOrder.getD x .rook, color := c, position := ((x : Int), y) }

/-- One pawn row: `{type: 'pawn', color, position: {x, y}}`. -/
def pawnRow (c : Color) (y : Int) : Row :=
  (List.range 8).map fun x =>
    some { type := .pawn, color := c, position := ((x : Int), y) }

/-- An empty row of the freshly allocated 8×8 grid. -/
def emptyRow : Row := List.replicate 8 none

/-- `createInitialBoard`: rows 0/1 black, rows 6/7 white, rest empty. -/
def createInitialBoard : Board :=
  [majorRow .black 0, pawnRow .black 1,
   emptyRow, emptyRow, emptyRow, emptyRow,
   pawnRow .white 6, majorRow .white 7]

/-! ## `createDeck` / `shuffleDeck` -/

/-- The 13 card values pushed by `createDeck`, in source order. -/
def deckValues : List CardValue :=
  [.num 2, .num 3, .num 4, .num 5, .num 6, .num 7, .num 8, .num 9, .num 10,
   .J, .Q, .K, .A]

/-- The unshuffled 52-card deck built by the nested `for` loops of
`createDeck` (suit-major order), before `shuffleDeck` is applied. -/
def baseDeck : List Card :=
  [Suit.hearts, Suit.diamonds, Suit.clubs, Suit.spades].flatMap fun s =>
    deckValues.map fun v => { suit := s, value := v, revealed := false }

/-- `[newDeck[i], newDeck[j]] = [newDeck[j], newDeck[i]]`: exchange the
elements at positions `i` and `j` (both always in range at the call sites). -/
def swapL (l : List Card) (i j : Nat) : List Card :=
  match l.get? i, l.get? j with
  | some a, some b => (l.set i b).set j a
  | _, _ => l

/-- The Fisher–Yates loop of `shuffleDeck`, counting `i` down to 1.
`r i % (i + 1)` models `Math.floor(Math.random() * (i + 1))`, the uniformly
chosen index `j ≤ i`; `r` is the sequence of random draws. -/
def shuffleGo (r : Nat → Nat) : List Card → Nat → List Card
  | l, 0 => l
  | l, i + 1 => shuffleGo r (swapL l (i + 1) (r (i + 1) % (i + 2))) i

/-- `shuffleDeck(deck)` with randomness source `r`. -/
def shuffleDeck (r : Nat → Nat) (l : List Card) : List Card :=
  shuffleGo r l (l.length - 1)

/-- `createDeck()` with randomness source `r`. -/
def createDeck (r : Nat → Nat) : List Card :=
  shuffleDeck r baseDeck

/-! ## `POST /api/games` -/

/-- The session built by the create endpoint (`gameId` is the fresh uuid,
`r` the randomness consumed by `createDeck`). -/
def createGame (r : Nat → Nat) (gameId : String) : GameState where
  id := gameId
  whitePlayer := none
  blackPlayer := none
  board := createInitialBoard
  communityCards := []
  currentTurn := .white
  deck := createDeck r
  status := .waiting

/-! ## `POST /api/games/:gameId/join` -/

inductive JoinError
  | ColorTaken
deriving DecidableEq

/-- Slot read `game.players[color]`. -/
def playerSlot (g : GameState) (c : Color) : Option String :=
  match c with
  | .white => g.whitePlayer
  | .black => g.blackPlayer

/-- Slot write `game.players[color] = playerId`. -/
def setPlayerSlot (g : GameState) (c : Color) (pid : String) : GameState :=
  match c with
  | .white => { g with whitePlayer := some pid }
  | .black => { g with blackPlayer := some pid }

/-- The join handler body, after the `games.get` lookup succeeded (the
404 branch is the registry lookup, modelled by the caller).  `if
(game.players[color])` / `if (game.players.white && game.players.black)`
test truthiness; a player id is a non-empty string, so truthiness is
`Option.isSome`. -/
def restJoin (g : GameState) (pid : String) (c : Color) :
    Except JoinError GameState :=
  if (playerSlot g c).isSome then
    .error .ColorTaken
  else
    let g1 := setPlayerSlot g c pid
    if g1.whitePlayer.isSome && g1.blackPlayer.isSome then
      let dealt := (dealCards 3 g1.deck).1
      .ok { g1 with
              status := .active,
              deck := (dealCards 3 g1.deck).2,
              communityCards := dealt.map fun cd => { cd with revealed := true } }
    else
      .ok g1

/-! ## `POST /api/games/:gameId/move` -/

inductive MoveError
  | NotYourTurn
  | InvalidPiece
deriving DecidableEq

/-- `Object.entries(game.players).find(([color, id]) => id === playerId)`.
Property insertion order is white-then-black except when one player id holds
both colors (excluded by the spec's "at most one match" invariant), so the
reverse lookup is modelled checking white first. -/
def playerColor (g : GameState) (pid : String) : Option Color :=
  if g.whitePlayer = some pid then some .white
  else if g.blackPlayer = some pid then some .black
  else none

def flipTurn : Color → Color
  | .white => .black
  | .black => .white

/-- The REST move handler body after the `games.get` lookup.  The outer
`Option` is `none` exactly when an unguarded `board[y]` access with `y` out
of range throws (`from.y` at the piece read, `to.y` at the destination
write); on success returns the error reply or the mutated state plus the
single broadcast update. -/
def restMove (g : GameState) (m : Move) :
    Option (Except MoveError (GameState × GameUpdate)) :=
  let colorOk := match playerColor g m.playerId with
    | none => false
    | some c => c == g.currentTurn
  if !colorOk then
    some (.error .NotYourTurn)
  else
    match boardGet g.board m.fromX m.fromY with
    | none => none
    | some none => some (.error .InvalidPiece)
    | some (some piece) =>
      if piece.color != g.currentTurn then
        some (.error .InvalidPiece)
      else
        let moved := { piece with position := (m.toX, m.toY) }
        match boardSet g.board m.toX m.toY (some moved) with
        | none => none
        | some b1 =>
          match boardSet b1 m.fromX m.fromY none with
          | none => none
          | some b2 =>
            some (.ok ({ g with board := b2,
                                currentTurn := flipTurn g.currentTurn },
                       .MOVE (m.fromX, m.fromY) (m.toX, m.toY) piece))

/-! ## `POST /api/games/:gameId/play-card` -/

inductive PlayCardError
  | DeckEmpty
deriving DecidableEq

/-- The REST play-card handler body after the `games.get` lookup.  The card
is popped BEFORE the board access, so an out-of-range `piecePosition.y`
throws (`none`) with the deck already shortened; the source's partial
mutation is modelled by returning `none` — no claim observes the
post-crash state.  On success: the card (still `revealed = false` in the
broadcast payload) is attached `revealed = true` to the piece if the cell is
occupied, and one `CARD_PLAY` update is emitted either way. -/
def restPlayCard (g : GameState) (px py : Int) :
    Option (Except PlayCardError (GameState × GameUpdate)) :=
  match drawCard g.deck with
  | none => some (.error .DeckEmpty)
  | some (card, rest) =>
    let g1 := { g with deck := rest }
    match boardGet g1.board px py with
    | none => none
    | some cell =>
      let b2 := match cell with
        | none => g1.board
        | some piece =>
          match boardSet g1.board px py
              (some { piece with card := some { card with revealed := true } }) with
          | none => g1.board
          | some b => b
      some (.ok ({ g1 with board := b2 }, .CARD_PLAY (px, py) card))

/-! ## WebSocket handlers -/

/-- `isValidMove`: `none` models the throw on `board[from.y]` when `from.y`
is out of range (the validator bounds-checks only `to`). -/
def isValidMove (g : GameState) (m : Move) : Option Bool :=
  match boardGet g.board m.fromX m.fromY with
  | none => none
  | some none => some false
  | some (some piece) =>
    if m.toX < 0 || m.toX > 7 || m.toY < 0 || m.toY > 7 then some false
    else
      match boardGet g.board m.toX m.toY with
      | none => none
      | some (some destPiece) => some (destPiece.color != piece.color)
      | some none => some true

/-- Result of a `MOVE_REQUEST` push message against a found session:
the (possibly mutated) session, the broadcast updates, and whether an
`ERROR` reply went back to the sender. -/
structure WsMoveResult where
  game : GameState
  updates : List GameUpdate
  errorToSender : Bool
deriving DecidableEq

/-- The `MOVE_REQUEST` handler against a found session.  It applies the
move whenever `isValidMove` passes: it checks NEITHER the acting player's
color NOR `currentTurn`, and it does NOT flip `currentTurn`. -/
def wsMoveRequest (g : GameState) (m : Move) : Option WsMoveResult :=
  match isValidMove g m with
  | none => none
  | some false => some ⟨g, [], false⟩
  | some true =>
    match boardGet g.board m.fromX m.fromY with
    | none => none
    | some none => some ⟨g, [], true⟩
    | some (some piece) =>
      let moved := { piece with position := (m.toX, m.toY) }
      match boardSet g.board m.toX m.toY (some moved) with
      | none => none
      | some b1 =>
        match boardSet b1 m.fromX m.fromY none with
        | none => none
        | some b2 =>
          some ⟨{ g with board := b2 },
                [.MOVE (m.fromX, m.fromY) (m.toX, m.toY) piece], false⟩

/-- The `CARD_PLAY_REQUEST` handler against a found session.  Unlike the
REST path it broadcasts `CARD_PLAY` only when a piece occupies the target
cell, and an empty deck is silently ignored (no reply of any kind). -/
def wsCardPlayRequest (g : GameState) (px py : Int) :
    Option (GameState × List GameUpdate) :=
  match drawCard g.deck with
  | none => some (g, [])
  | some (card, rest) =>
    let g1 := { g with deck := rest }
    match boardGet g1.board px py with
    | none => none
    | some none => some (g1, [])
    | some (some piece) =>
      match boardSet g1.board px py
          (some { piece with card := some { card with revealed := true } }) with
      | none => some (g1, [])
      | some b => some ({ g1 with board := b },
                        [.CARD_PLAY (px, py) card])

/-! ## Connection registry and broadcaster -/

/-- One `playerConnections` entry value: `{ws, gameId}`; the socket handle
is abstracted to a numeric connection id. -/
structure ConnEntry where
  ws : Nat
  gameId : String
deriving DecidableEq

/-- `playerConnections` as an insertion-ordered key/value list (JS `Map`
iteration order). -/
abbrev Registry := List (String × ConnEntry)

/-- `playerConnections.set(playerId, entry)`: overwrite in place if the key
exists, else append. -/
def registrySet (reg : Registry) (pid : String) (e : ConnEntry) : Registry :=
  if reg.any (fun p => p.1 = pid) then
    reg.map fun p => if p.1 = pid then (pid, e) else p
  else
    reg ++ [(pid, e)]

/-- `broadcastGameUpdate`: the connection ids that receive an update for
`gameId`, in registry iteration order. -/
def broadcastRecipients (reg : Registry) (gameId : String) : List Nat :=
  (reg.filter fun p => p.2.gameId = gameId).map fun p => p.2.ws

/-- The `JOIN_GAME` push handler: register the connection, THEN broadcast
`PLAYER_JOINED` — so the fresh entry is itself among the recipients.
Returns the new registry and the recipient connection ids. -/
def wsJoinGame (reg : Registry) (gameId pid : String) (ws : Nat) :
    Registry × List Nat :=
  let reg1 := registrySet reg pid ⟨ws, gameId⟩
  (reg1, broadcastRecipients reg1 gameId)

/-- The socket `close` handler: scan entries in iteration order for the
first whose `ws` matches, delete it by key, broadcast
`PLAYER_DISCONNECTED {playerId}` to that player's session, and `break`.
Returns the new registry and the emitted broadcasts as
`(playerId, recipient ids)` pairs. -/
def wsClose (reg : Registry) (ws : Nat) : Registry × List (String × List Nat) :=
  match reg.find? (fun p => p.2.ws = ws) with
  | none => (reg, [])
  | some (pid, e) =>
    let reg1 := reg.eraseP (fun p => p.1 = pid)
    (reg1, [(pid, broadcastRecipients reg1 e.gameId)])

/-! ## Result projections (used to state claims without exposing the whole
result term) -/

/-- Whether a REST move reply is the success reply (state + broadcast). -/
def moveAccepted (r : Option (Except MoveError (GameState × GameUpdate))) : Bool :=
  match r with
  | some (.ok _) => true
  | _ => false

/-- `currentTurn` of the state a successful REST move replies with. -/
def moveOutcomeTurn (r : Option (Except MoveError (GameState × GameUpdate))) :
    Option Color :=
  match r with
  | some (.ok (g, _)) => some g.currentTurn
  | _ => none

/-- Deck length of the state a successful REST play-card replies with. -/
def playCardDeckLen (r : Option (Except PlayCardError (GameState × GameUpdate))) :
    Option Nat :=
  match r with
  | some (.ok (g, _)) => some g.deck.length
  | _ => none

/-- The update a successful REST play-card broadcasts. -/
def playCardUpdate (r : Option (Except PlayCardError (GameState × GameUpdate))) :
    Option GameUpdate :=
  match r with
  | some (.ok (_, u)) => some u
  | _ => none

/-! ## Concrete fixtures for counterexamples and witnesses -/

def cH2 : Card := { suit := .hearts, value := .num 2, revealed := false }
def cH3 : Card := { suit := .hearts, value := .num 3, revealed := false }
def cH4 : Card := { suit := .hearts, value := .num 4, revealed := false }
def cH5 : Card := { suit := .hearts, value := .num 5, revealed := false }

/-- A four-card deck in array order (so `pop` removes `cH5`). -/
def demoDeck4 : List Card := [cH2, cH3, cH4, cH5]

/-- A two-player session on the freshly created board, parametrized by its
deck. -/
def demoGame (deck : List Card) : GameState where
  id := "g1"
  whitePlayer := some "p1"
  blackPlayer := some "p2"
  board := createInitialBoard
  communityCards := []
  currentTurn := .white
  deck := deck
  status := .active

/-! ## Deck lemmas -/

theorem drawCard_length {d : List Card} {c : Card} {rest : List Card}
    (h : drawCard d = some (c, rest)) : rest.length + 1 = d.length := by
  unfold drawCard at h
  cases hl : d.getLast? with
  | none => rw [hl] at h; exact absurd h (by simp)
  | some c0 =>
    rw [hl] at h
    cases h
    have hne : d ≠ [] := by
      intro he; rw [he] at hl; simp at hl
    have := List.length_dropLast d
    have hpos : 0 < d.length := List.length_pos.mpr hne
    omega

theorem drawCard_getLast {d : List Card} {c : Card} {rest : List Card}
    (h : drawCard d = some (c, rest)) : d.getLast? = some c ∧ rest = d.dropLast := by
  unfold drawCard at h
  cases hl : d.getLast? with
  | none => rw [hl] at h; exact absurd h (by simp)
  | some c0 => rw [hl] at h; cases h; exact ⟨rfl, rfl⟩

/-! ## Claim C3: `draw()` vs `deal(n)` -/

/-- C3 counterexample: on the four-card deck, `deal(3)` removes the FRONT
three cards (first `cH2`), while `draw()` removes the BACK card `cH5` — so
the card `draw()` removes is not the first (nor any) card `deal(3)` removes,
refuting "draw() and deal(n) both operate on the top of the same deck
sequence". -/
theorem c3_draw_deal_counterexample :
    (dealCards 3 demoDeck4).1.head? = some cH2 ∧
    (drawCard demoDeck4).map Prod.fst = some cH5 ∧
    cH2 ≠ cH5 ∧
    cH5 ∉ (dealCards 3 demoDeck4).1 := by
  decide

/-- C3 amended: `draw()` and `deal(n)` operate on OPPOSITE ends of the deck
sequence — `deal(3)` removes the first three cards while `draw()` removes
the last — so on any deck of more than 3 distinct cards the 3 community
cards dealt on the activating join are never the card the next `draw()`
yields, and dealing them does not change what the next `draw()` yields. -/
theorem c3_draw_deal_opposite_ends :
    ∀ (d : List Card), d.Nodup → 3 < d.length →
      (dealCards 3 d).1 = d.take 3 ∧
      (∀ c rest, drawCard d = some (c, rest) → c ∉ (dealCards 3 d).1) ∧
      (drawCard ((dealCards 3 d).2)).map Prod.fst = (drawCard d).map Prod.fst := by
  intro d hnd hlen
  have hdropne : d.drop 3 ≠ [] := by
    have : (d.drop 3).length = d.length - 3 := List.length_drop 3 d
    intro he
    rw [he] at this
    simp at this
    omega
  have hlast : (d.drop 3).getLast? = d.getLast? := by
    conv_rhs => rw [← List.take_append_drop 3 d]
    rw [List.getLast?_append_of_ne_nil _ hdropne]
  refine ⟨rfl, ?_, ?_⟩
  · intro c rest hdraw hmem
    have h1 := (drawCard_getLast hdraw).1
    -- the drawn card is the last card, which lives in `d.drop 3`
    have hcd : c ∈ d.drop 3 := by
      have h2 : (d.drop 3).getLast? = some c := by rw [hlast, h1]
      obtain ⟨hne, heq⟩ := List.mem_getLast?_eq_getLast (Option.mem_def.mpr h2)
      rw [heq]
      exact List.getLast_mem hne
    -- nodup splits `d` into disjoint take/drop parts
    have hsplit : (d.take 3 ++ d.drop 3).Nodup := by
      rw [List.take_append_drop]; exact hnd
    have hdisj := List.disjoint_of_nodup_append hsplit
    exact hdisj hmem hcd
  · unfold drawCard
    rw [show (dealCards 3 d).2 = d.drop 3 from rfl, hlast]
    cases d.getLast? <;> rfl

/-- C3 witness: the amended theorem applied to the concrete four-card deck. -/
theorem c3_witness :
    (dealCards 3 demoDeck4).1 = demoDeck4.take 3 ∧
    (∀ c rest, drawCard demoDeck4 = some (c, rest) →
       c ∉ (dealCards 3 demoDeck4).1) ∧
    (drawCard ((dealCards 3 demoDeck4).2)).map Prod.fst =
      (drawCard demoDeck4).map Prod.fst :=
  c3_draw_deal_opposite_ends demoDeck4 (by decide) (by decide)

/-! ## Claim C5: play-card on an empty deck -/

/-- C5 counterexample: on the push channel, playing a card against a session
with an empty deck is silently ignored — the handler replies with the
unchanged session and emits NO update and NO error of any kind (its body
contains no send to the requesting socket), so `DeckEmpty` is not reported
to the caller as the claim requires for "either surface". -/
theorem c5_ws_silent_counterexample :
    wsCardPlayRequest (demoGame []) 0 0 = some (demoGame [], []) := by
  decide

/-- C5 amended: with an empty deck, the REST surface fails with `DeckEmpty`
while the push channel silently does nothing (no reply, no broadcast); on
both surfaces board, community cards and deck are left unchanged. -/
theorem c5_deck_empty (g : GameState) (px py : Int) (h : g.deck = []) :
    restPlayCard g px py = some (.error .DeckEmpty) ∧
    wsCardPlayRequest g px py = some (g, []) := by
  constructor
  · unfold restPlayCard drawCard
    rw [h]
    rfl
  · unfold wsCardPlayRequest drawCard
    rw [h]
    rfl

/-- C5 witness: the amended theorem at the concrete empty-deck session. -/
theorem c5_witness :
    restPlayCard (demoGame []) 0 0 = some (.error .DeckEmpty) ∧
    wsCardPlayRequest (demoGame []) 0 0 = some (demoGame [], []) :=
  c5_deck_empty (demoGame []) 0 0 rfl


/-! ## Board access lemmas (in-range case) -/

theorem rowGet_some {b : Board} {py : Int} (hy0 : 0 ≤ py)
    (hy : py.toNat < b.length) : ∃ row, rowGet b py = some row := by
  refine ⟨b.get ⟨py.toNat, hy⟩, ?_⟩
  unfold rowGet
  rw [if_pos hy0]
  exact List.get?_eq_get hy

theorem boardGet_of_rowGet {b : Board} {py : Int} {row : Row}
    (hrow : rowGet b py = some row) (px : Int) :
    boardGet b px py = some (cellGet row px) := by
  unfold boardGet
  rw [hrow]

theorem boardSet_of_rowGet {b : Board} {py : Int} {row : Row}
    (hy0 : 0 ≤ py) (hrow : rowGet b py = some row) (px : Int)
    (v : Option ChessPiece) :
    boardSet b px py v = some (b.set py.toNat (rowSet row px v)) := by
  unfold boardSet
  rw [hrow]
  dsimp only
  rw [if_pos hy0]

/-! ## Claim C4: play-card consumes a card and broadcasts -/

/-- C4 counterexample: on the push channel, playing a card at an EMPTY
in-range cell (row 3 of the fresh board) consumes the top card — the reply
deck is one card shorter — yet broadcasts NO `CARD_PLAY` update, refuting
"a CARD_PLAY update is broadcast to every connection" for that surface. -/
theorem c4_ws_no_broadcast_counterexample :
    wsCardPlayRequest (demoGame demoDeck4) 0 3 =
      some (demoGame [cH2, cH3, cH4], []) := by
  decide

/-- C4 amended: against a session with a non-empty deck and an in-range
target row, exactly one card is removed from the deck on both surfaces even
when the target cell is empty; the REST surface always broadcasts the
`CARD_PLAY {piecePosition, card}` update, but the push channel broadcasts it
only when a piece occupies the target cell; the broadcaster delivers an
update for the session to every connection registered against it. -/
theorem c4_play_card_consumes (g : GameState) (px py : Int)
    (card : Card) (rest : List Card)
    (hdraw : drawCard g.deck = some (card, rest))
    (hy0 : 0 ≤ py) (hy : py.toNat < g.board.length) :
    playCardDeckLen (restPlayCard g px py) = some rest.length ∧
    rest.length + 1 = g.deck.length ∧
    playCardUpdate (restPlayCard g px py) = some (.CARD_PLAY (px, py) card) ∧
    (∀ g2 ups, wsCardPlayRequest g px py = some (g2, ups) →
       g2.deck = rest ∧
       (boardGet g.board px py = some none → ups = []) ∧
       (∀ piece, boardGet g.board px py = some (some piece) →
          ups = [.CARD_PLAY (px, py) card])) ∧
    (∀ (reg : Registry) (q : String × ConnEntry), q ∈ reg → q.2.gameId = g.id →
       q.2.ws ∈ broadcastRecipients reg g.id) := by
  obtain ⟨row, hrow⟩ := rowGet_some hy0 hy
  have hbg := boardGet_of_rowGet hrow px
  have hbs := boardSet_of_rowGet hy0 hrow px
  have hrest : playCardDeckLen (restPlayCard g px py) = some rest.length ∧
      playCardUpdate (restPlayCard g px py) = some (.CARD_PLAY (px, py) card) := by
    unfold restPlayCard
    rw [hdraw]
    dsimp only
    rw [hbg]
    cases hcell : cellGet row px with
    | none => exact ⟨rfl, rfl⟩
    | some piece =>
      dsimp only
      rw [hbs]
      exact ⟨rfl, rfl⟩
  refine ⟨hrest.1, drawCard_length hdraw, hrest.2, ?_, ?_⟩
  · intro g2 ups hws
    unfold wsCardPlayRequest at hws
    rw [hdraw] at hws
    dsimp only at hws
    rw [hbg] at hws
    cases hcell : cellGet row px with
    | none =>
      rw [hcell] at hws
      dsimp only at hws
      rw [Option.some_inj, Prod.mk.injEq] at hws
      refine ⟨by rw [← hws.1], fun _ => hws.2.symm, ?_⟩
      intro piece hpc
      rw [hbg, hcell] at hpc
      simp at hpc
    | some piece =>
      rw [hcell] at hws
      dsimp only at hws
      rw [hbs] at hws
      dsimp only at hws
      rw [Option.some_inj, Prod.mk.injEq] at hws
      refine ⟨by rw [← hws.1], ?_, fun _ _ => hws.2.symm⟩
      intro hnone
      rw [hbg, hcell] at hnone
      simp at hnone
  · intro reg q hq hgid
    refine List.mem_map.mpr ⟨q, List.mem_filter.mpr ⟨hq, ?_⟩, rfl⟩
    exact decide_eq_true hgid

/-- C4 witness: the amended theorem at the four-card session, target (0,3). -/
theorem c4_witness :
    playCardDeckLen (restPlayCard (demoGame demoDeck4) 0 3) = some 3 ∧
    3 + 1 = (demoGame demoDeck4).deck.length ∧
    playCardUpdate (restPlayCard (demoGame demoDeck4) 0 3) =
      some (.CARD_PLAY (0, 3) cH5) :=
  have h := c4_play_card_consumes (demoGame demoDeck4) 0 3 cH5 [cH2, cH3, cH4]
    rfl (by decide) (by decide)
  ⟨h.1, h.2.1, h.2.2.1⟩

/-! ## Registry lemmas -/

theorem registrySet_mem (reg : Registry) (pid : String) (e : ConnEntry) :
    (pid, e) ∈ registrySet reg pid e := by
  unfold registrySet
  by_cases h : reg.any (fun p => p.1 = pid)
  · rw [if_pos h]
    obtain ⟨p, hp, hpid⟩ := List.any_eq_true.mp h
    refine List.mem_map.mpr ⟨p, hp, ?_⟩
    rw [if_pos (of_decide_eq_true hpid)]
  · rw [if_neg h]
    exact List.mem_append_right _ (List.mem_singleton.mpr rfl)

theorem broadcastRecipients_complete (reg : Registry) (gid : String) :
    ∀ q ∈ reg, q.2.gameId = gid → q.2.ws ∈ broadcastRecipients reg gid := by
  intro q hq hgid
  refine List.mem_map.mpr ⟨q, List.mem_filter.mpr ⟨hq, ?_⟩, rfl⟩
  exact decide_eq_true hgid

theorem broadcastRecipients_sound (reg : Registry) (gid : String) :
    ∀ w ∈ broadcastRecipients reg gid,
      ∃ q ∈ reg, q.2.gameId = gid ∧ q.2.ws = w := by
  intro w hw
  obtain ⟨q, hq, hws⟩ := List.mem_map.mp hw
  obtain ⟨hmem, hgid⟩ := List.mem_filter.mp hq
  exact ⟨q, hmem, of_decide_eq_true hgid, hws⟩

/-! ## Claim C6: `JOIN_GAME` broadcasts `PLAYER_JOINED` -/

/-- A one-entry registry: player `p1` of session `g1` on connection 1. -/
def regA : Registry := [("p1", ⟨1, "g1"⟩)]

/-- C6 counterexample: when `p2` joins session `g1` on connection 2, the
`PLAYER_JOINED` recipients are `[1, 2]` — the joining player's OWN
connection 2 is among them (registration precedes the broadcast), refuting
"broadcast … to every connection of that session other than the joining
player's own connection". -/
theorem c6_self_broadcast_counterexample :
    (wsJoinGame regA "g1" "p2" 2).2 = [1, 2] ∧
    2 ∈ (wsJoinGame regA "g1" "p2" 2).2 := by
  decide

/-- C6 amended: after the connection entry is registered, `PLAYER_JOINED` is
broadcast to EVERY connection of that session INCLUDING the joining
player's own (and to no connection of another session). -/
theorem c6_join_broadcast (reg : Registry) (gid pid : String) (ws : Nat) :
    ws ∈ (wsJoinGame reg gid pid ws).2 ∧
    (∀ q ∈ (wsJoinGame reg gid pid ws).1, q.2.gameId = gid →
       q.2.ws ∈ (wsJoinGame reg gid pid ws).2) ∧
    (∀ w ∈ (wsJoinGame reg gid pid ws).2,
       ∃ q ∈ (wsJoinGame reg gid pid ws).1, q.2.gameId = gid ∧ q.2.ws = w) := by
  refine ⟨?_, ?_, ?_⟩
  · exact broadcastRecipients_complete _ gid (pid, ⟨ws, gid⟩)
      (registrySet_mem reg pid ⟨ws, gid⟩) rfl
  · exact broadcastRecipients_complete _ gid
  · exact broadcastRecipients_sound _ gid

/-- C6 witness: the amended theorem at the concrete registry — the joiner's
own connection 2 receives the event. -/
theorem c6_witness : 2 ∈ (wsJoinGame regA "g1" "p2" 2).2 :=
  (c6_join_broadcast regA "g1" "p2" 2).1

/-! ## Claim C9: disconnect removes one entry and notifies its session -/

/-- C9: for a disconnect whose handle matches a registered entry (the first
match in iteration order; with unique player keys it is the only one),
exactly that entry is removed, every other entry survives, and exactly one
`PLAYER_DISCONNECTED {playerId}` broadcast is emitted whose recipients are
exactly the remaining connections of that player's session — never a
connection of another session. -/
theorem c9_disconnect (reg : Registry) (ws : Nat) (pid : String) (e : ConnEntry)
    (hfind : reg.find? (fun p => p.2.ws = ws) = some (pid, e))
    (hkeys : (reg.map Prod.fst).Nodup) :
    (pid, e) ∈ reg ∧
    (wsClose reg ws).1.length + 1 = reg.length ∧
    (∀ q ∈ (wsClose reg ws).1, q ∈ reg) ∧
    (∀ q ∈ reg, q.1 ≠ pid → q ∈ (wsClose reg ws).1) ∧
    (pid, e) ∉ (wsClose reg ws).1 ∧
    (wsClose reg ws).2.length = 1 ∧
    (∀ pm rs, (pm, rs) ∈ (wsClose reg ws).2 → pm = pid ∧
       (∀ w ∈ rs, ∃ q ∈ (wsClose reg ws).1, q.2.gameId = e.gameId ∧ q.2.ws = w) ∧
       (∀ q ∈ (wsClose reg ws).1, q.2.gameId = e.gameId → q.2.ws ∈ rs)) := by
  have hmem : (pid, e) ∈ reg := List.mem_of_find?_eq_some hfind
  have hclose : wsClose reg ws =
      (reg.eraseP (fun p => p.1 = pid),
       [(pid, broadcastRecipients (reg.eraseP (fun p => p.1 = pid)) e.gameId)]) := by
    unfold wsClose
    rw [hfind]
  have hpa : (fun (p : String × ConnEntry) => decide (p.1 = pid)) (pid, e) = true :=
    decide_eq_true rfl
  refine ⟨hmem, ?_, ?_, ?_, ?_, ?_, ?_⟩
  · rw [hclose]
    exact List.length_eraseP_add_one hmem hpa
  · rw [hclose]
    intro q hq
    exact List.eraseP_subset _ hq
  · rw [hclose]
    intro q hq hne
    exact (List.mem_eraseP_of_neg (by simpa using hne)).mpr hq
  · rw [hclose]
    intro hbad
    obtain ⟨b, l₁, l₂, _, hpb, hsplit, herase⟩ :=
      @List.exists_of_eraseP _ (fun p => decide (p.1 = pid)) reg (pid, e) hmem hpa
    have hb1 : b.1 = pid := of_decide_eq_true hpb
    have hnodup : ((l₁ ++ b :: l₂).map Prod.fst).Nodup := by
      rw [← hsplit]; exact hkeys
    rw [List.map_append, List.map_cons] at hnodup
    have hnotmem : b.1 ∉ (l₁.map Prod.fst ++ l₂.map Prod.fst) := by
      have h2 := List.nodup_middle.mp hnodup
      exact (List.nodup_cons.mp h2).1
    rw [herase] at hbad
    apply hnotmem
    rw [hb1, ← List.map_append]
    exact List.mem_map.mpr ⟨(pid, e), hbad, rfl⟩
  · rw [hclose]
    rfl
  · rw [hclose]
    intro pm rs hmm
    have : pm = pid ∧ rs = broadcastRecipients (reg.eraseP (fun p => p.1 = pid)) e.gameId := by
      simpa using hmm
    obtain ⟨hpm, hrs⟩ := this
    subst hpm hrs
    exact ⟨rfl, broadcastRecipients_sound _ _, broadcastRecipients_complete _ _⟩

/-- Registry with two sessions: `g1` holds connections 1 and 2, `g2` holds
connection 3. -/
def regB : Registry := [("p1", ⟨1, "g1"⟩), ("p2", ⟨2, "g1"⟩), ("p3", ⟨3, "g2"⟩)]

/-- C9 witness: disconnecting connection 2 on the concrete registry removes
exactly one entry and emits exactly one broadcast. -/
theorem c9_witness :
    ("p2", (⟨2, "g1"⟩ : ConnEntry)) ∈ regB ∧
    (wsClose regB 2).1.length + 1 = regB.length ∧
    (wsClose regB 2).2.length = 1 :=
  have h := c9_disconnect regB 2 "p2" ⟨2, "g1"⟩ (by decide) (by decide)
  ⟨h.1, h.2.1, h.2.2.2.2.2.1⟩

/-! ## Move handler inversion lemmas -/

theorem restMove_ok_inv {g : GameState} {m : Move} {g1 : GameState}
    {u : GameUpdate} (h : restMove g m = some (.ok (g1, u))) :
    g1.currentTurn = flipTurn g.currentTurn ∧ g1.deck = g.deck ∧
    g1.status = g.status ∧ g1.communityCards = g.communityCards := by
  unfold restMove at h
  repeat' (first | split at h | simp only [] at h)
  all_goals try simp_all
  all_goals (obtain ⟨h1, h2⟩ := h; rw [← h1]; exact ⟨rfl, rfl, rfl, rfl⟩)

theorem wsMoveRequest_inv {g : GameState} {m : Move} {res : WsMoveResult}
    (h : wsMoveRequest g m = some res) :
    res.game.currentTurn = g.currentTurn ∧ res.game.deck = g.deck ∧
    res.game.status = g.status ∧ res.game.communityCards = g.communityCards := by
  unfold wsMoveRequest at h
  repeat' (first | split at h | simp only [] at h)
  all_goals try simp_all
  all_goals (rw [← h]; exact ⟨rfl, rfl, rfl, rfl⟩)

/-! ## Claim C1: turn alternation -/

/-- White pawn e2-like move: from (4,6) to (4,4). -/
def mvPawn : Move := { fromX := 4, fromY := 6, toX := 4, toY := 4, playerId := "p1" }

/-- C1 counterexample: the push-channel move handler ACCEPTS the white pawn
move (one `MOVE` update is broadcast) yet leaves `currentTurn` at white — it
never flips the turn, refuting "on either surface … currentTurn is flipped
to the other color exactly once". -/
theorem c1_ws_no_flip_counterexample :
    (wsMoveRequest (demoGame [cH2]) mvPawn).map (fun r => r.updates.length) = some 1 ∧
    (wsMoveRequest (demoGame [cH2]) mvPawn).map (fun r => r.game.currentTurn) =
      some .white ∧
    (demoGame [cH2]).currentTurn = .white := by
  decide

/-- C1 amended: only the REST surface flips `currentTurn` (exactly once per
accepted move); a move accepted on the push channel leaves `currentTurn`
unchanged, so strict alternation holds only across REST-accepted moves. -/
theorem c1_turn_flip :
    (∀ (g : GameState) (m : Move),
       moveAccepted (restMove g m) = true →
       moveOutcomeTurn (restMove g m) = some (flipTurn g.currentTurn)) ∧
    (∀ (g : GameState) (m : Move) (res : WsMoveResult),
       wsMoveRequest g m = some res → res.game.currentTurn = g.currentTurn) := by
  constructor
  · intro g m hacc
    cases hr : restMove g m with
    | none => rw [hr] at hacc; simp [moveAccepted] at hacc
    | some r =>
      cases r with
      | error e => rw [hr] at hacc; simp [moveAccepted] at hacc
      | ok p =>
        obtain ⟨g1, u⟩ := p
        unfold moveOutcomeTurn
        dsimp only
        rw [(restMove_ok_inv hr).1]
  · intro g m res h
    exact (wsMoveRequest_inv h).1

/-- C1 witness: the REST half of the amended theorem at the white pawn move. -/
theorem c1_witness :
    moveOutcomeTurn (restMove (demoGame [cH2]) mvPawn) = some .black :=
  c1_turn_flip.1 (demoGame [cH2]) mvPawn (by decide)

/-! ## Claim C2: NotYourTurn enforcement -/

/-- Black pawn move from (0,1) to (0,3), requested by `p2`. -/
def mvBlackPawn : Move :=
  { fromX := 0, fromY := 1, toX := 0, toY := 3, playerId := "p2" }

/-- C2 counterexample: with `currentTurn = white`, player `p2` (black) moves
a black pawn through the push channel and the move is ACCEPTED — one `MOVE`
update is broadcast and the board changes — because the `MOVE_REQUEST`
handler performs no turn (or player) check at all, refuting "on either
surface … fails with NotYourTurn". -/
theorem c2_ws_no_turn_check_counterexample :
    playerColor (demoGame [cH2]) "p2" = some .black ∧
    (demoGame [cH2]).currentTurn = .white ∧
    (wsMoveRequest (demoGame [cH2]) mvBlackPawn).map (fun r => r.updates.length) =
      some 1 ∧
    (wsMoveRequest (demoGame [cH2]) mvBlackPawn).map
      (fun r => r.game.board == (demoGame [cH2]).board) = some false := by
  decide

/-- C2 amended: on the REST surface a move whose acting player's color
(reverse lookup over `players`) differs from `currentTurn` fails with
`NotYourTurn` before any mutation; the push channel never consults the
acting player at all (its result is independent of the `playerId` field), so
no turn check happens there. -/
theorem c2_not_your_turn :
    (∀ (g : GameState) (m : Move),
       playerColor g m.playerId ≠ some g.currentTurn →
       restMove g m = some (.error .NotYourTurn)) ∧
    (∀ (g : GameState) (m : Move) (pid : String),
       wsMoveRequest g { m with playerId := pid } = wsMoveRequest g m) := by
  constructor
  · intro g m h
    have hco : (match playerColor g m.playerId with
        | none => false
        | some c => c == g.currentTurn) = false := by
      cases hpc : playerColor g m.playerId with
      | none => rfl
      | some c =>
        dsimp only
        rw [beq_eq_false_iff_ne]
        intro he
        exact h (by rw [hpc, he])
    unfold restMove
    rw [hco]
    rfl
  · intro g m pid
    cases m
    rfl

/-- C2 witness: the REST half of the amended theorem rejects `p2`'s black
pawn move while it is white's turn. -/
theorem c2_witness :
    restMove (demoGame [cH2]) mvBlackPawn = some (.error .NotYourTurn) :=
  c2_not_your_turn.1 (demoGame [cH2]) mvBlackPawn (by decide)

/-! ## Claim C7: activating join deals 3 community cards -/

/-- The color opposite to `c` (the "other" player slot). -/
def otherColor : Color → Color
  | .white => .black
  | .black => .white

/-- A half-joined session (white taken, black free) whose deck has been
drained down to 2 cards by play-card commands (play-card has no status
check, so this state is reachable before activation). -/
def gJoinSmall : GameState where
  id := "g2"
  whitePlayer := some "p1"
  blackPlayer := none
  board := createInitialBoard
  communityCards := []
  currentTurn := .white
  deck := [cH2, cH3]
  status := .waiting

/-- C7 counterexample: the join that assigns the second color on the
two-card-deck session activates the game but deals only 2 community cards
(and shrinks the deck by 2, to empty) — not "exactly 3" as claimed, because
`deck.splice(0, 3)` silently truncates. -/
theorem c7_short_deal_counterexample :
    (restJoin gJoinSmall "p2" .black).toOption.map (fun g1 => g1.status) =
      some .active ∧
    (restJoin gJoinSmall "p2" .black).toOption.map
      (fun g1 => g1.communityCards.length) = some 2 ∧
    (restJoin gJoinSmall "p2" .black).toOption.map (fun g1 => g1.deck.length) =
      some 0 ∧
    gJoinSmall.deck.length = 2 := by
  decide

/-- C7 amended: a join that assigns the second color sets `status = active`
and moves `min(3, deck length)` cards — so exactly 3 whenever the deck still
holds at least 3 cards — from the FRONT of the deck into `communityCards`,
all marked `revealed = true`; a join that leaves a color unassigned deals no
cards and leaves status, deck and community cards unchanged. -/
theorem c7_join_second_color (g : GameState) (pid : String) (c : Color)
    (hfree : playerSlot g c = none) :
    ((playerSlot g (otherColor c)).isSome = true →
       (restJoin g pid c).toOption.map (fun g1 => g1.status) = some .active ∧
       (restJoin g pid c).toOption.map (fun g1 => g1.communityCards) =
         some ((g.deck.take 3).map fun cd => { cd with revealed := true }) ∧
       (restJoin g pid c).toOption.map (fun g1 => g1.communityCards.length) =
         some (min 3 g.deck.length) ∧
       (restJoin g pid c).toOption.map (fun g1 => g1.deck.length) =
         some (g.deck.length - 3) ∧
       (restJoin g pid c).toOption.map
         (fun g1 => g1.communityCards.all fun cd => cd.revealed) = some true) ∧
    ((playerSlot g (otherColor c)).isSome = false →
       (restJoin g pid c).toOption.map (fun g1 => g1.status) = some g.status ∧
       (restJoin g pid c).toOption.map (fun g1 => g1.deck) = some g.deck ∧
       (restJoin g pid c).toOption.map (fun g1 => g1.communityCards) =
         some g.communityCards) := by
  cases c with
  | white =>
    simp only [playerSlot, otherColor] at hfree ⊢
    constructor
    · intro hother
      unfold restJoin
      simp [playerSlot, setPlayerSlot, hfree, hother, dealCards, Except.toOption,
        List.length_take, List.length_map, List.length_drop, List.all_eq_true,
        List.mem_map]
      intro x hx
      obtain ⟨cd, hcd, hrfl⟩ := List.mem_map.mp (List.take_subset 3 _ hx)
      rw [← hrfl]
    · intro hother
      unfold restJoin
      simp [playerSlot, setPlayerSlot, hfree, hother, Except.toOption]
  | black =>
    simp only [playerSlot, otherColor] at hfree ⊢
    constructor
    · intro hother
      unfold restJoin
      simp [playerSlot, setPlayerSlot, hfree, hother, dealCards, Except.toOption,
        List.length_take, List.length_map, List.length_drop, List.all_eq_true,
        List.mem_map]
      intro x hx
      obtain ⟨cd, hcd, hrfl⟩ := List.mem_map.mp (List.take_subset 3 _ hx)
      rw [← hrfl]
    · intro hother
      unfold restJoin
      simp [playerSlot, setPlayerSlot, hfree, hother, Except.toOption]

/-- The half-joined session with the full four-card demo deck. -/
def gJoin4 : GameState := { gJoinSmall with deck := demoDeck4 }

/-- C7 witness: the amended theorem at the four-card session — the
activating join deals exactly 3 revealed cards and leaves a one-card deck. -/
theorem c7_witness :
    (restJoin gJoin4 "p2" .black).toOption.map (fun g1 => g1.status) =
      some .active ∧
    (restJoin gJoin4 "p2" .black).toOption.map
      (fun g1 => g1.communityCards.length) = some 3 ∧
    (restJoin gJoin4 "p2" .black).toOption.map (fun g1 => g1.deck.length) =
      some 1 :=
  have h := (c7_join_second_color gJoin4 "p2" .black rfl).1 rfl
  ⟨h.1, h.2.2.1, h.2.2.2.1⟩

/-! ## Claim C10: out-of-range coordinates reach unguarded board accesses -/

deriving instance DecidableEq for Except


/-- C10: with a valid session, the right turn and an otherwise valid piece,
out-of-range coordinates reach an unguarded `board[y]` access (`none` = the
JS `TypeError`) on the public REST interface instead of a validation error:
the same pawn move with `to = (4,8)` or `from = (4,9)` crashes the REST move
handler, `piecePosition = (0,9)` crashes the REST play-card handler (after
the card is already drawn), while the push-path validator `isValidMove`
bounds-checks only `to` — it rejects the out-of-range `to` but itself hits
the unguarded access on an out-of-range `from`.  The in-range variant of the
same command is accepted, showing the crashing inputs pass all the checks
that exist. -/
theorem c10_unguarded_board_access :
    restMove (demoGame [cH2])
      { fromX := 4, fromY := 6, toX := 4, toY := 8, playerId := "p1" } = none ∧
    restMove (demoGame [cH2])
      { fromX := 4, fromY := 9, toX := 4, toY := 4, playerId := "p1" } = none ∧
    restPlayCard (demoGame [cH2]) 0 9 = none ∧
    isValidMove (demoGame [cH2])
      { fromX := 4, fromY := 6, toX := 4, toY := 8, playerId := "p1" } =
      some false ∧
    isValidMove (demoGame [cH2])
      { fromX := 4, fromY := 9, toX := 4, toY := 4, playerId := "p1" } = none ∧
    moveAccepted (restMove (demoGame [cH2]) mvPawn) = true := by
  decide

/-! ## Shuffle permutation lemmas -/

theorem cons_set_perm {α : Type} (t : List α) (k : Nat) (c x : α)
    (hk : t.get? k = some c) : (c :: t.set k x).Perm (x :: t) := by
  have hlt : k < t.length := by
    by_contra hge
    rw [List.get?_eq_none.mpr (Nat.le_of_not_lt hge)] at hk
    exact absurd hk (by simp)
  have hck : t.get ⟨k, hlt⟩ = c := by
    have := List.get?_eq_get hlt
    rw [this] at hk
    exact Option.some_inj.mp hk
  have hset : t.set k x = t.take k ++ x :: t.drop (k + 1) :=
    List.set_eq_take_cons_drop x hlt
  have hsplit : t = t.take k ++ c :: t.drop (k + 1) := by
    conv_lhs => rw [← List.take_append_drop k t]
    congr 1
    rw [List.drop_eq_get_cons hlt, hck]
  rw [hset]
  conv_rhs => rw [hsplit]
  refine List.Perm.trans (List.Perm.cons c List.perm_middle) ?_
  refine List.Perm.trans (List.Perm.swap x c _) ?_
  exact List.Perm.cons x List.perm_middle.symm

theorem set_set_perm {α : Type} :
    ∀ (l : List α) (i j : Nat) (a b : α),
      l.get? i = some a → l.get? j = some b →
      ((l.set i b).set j a).Perm l
  | [], _, _, _, _, hi, _ => by simp at hi
  | x :: t, 0, 0, a, b, hi, hj => by
    simp at hi hj
    subst hi
    subst hj
    exact List.Perm.refl _
  | x :: t, 0, j + 1, a, b, hi, hj => by
    simp at hi
    subst hi
    exact cons_set_perm t j b x hj
  | x :: t, i + 1, 0, a, b, hi, hj => by
    simp at hj
    subst hj
    exact cons_set_perm t i a x hi
  | x :: t, i + 1, j + 1, a, b, hi, hj =>
    List.Perm.cons x (set_set_perm t i j a b hi hj)

theorem swapL_perm (l : List Card) (i j : Nat) : (swapL l i j).Perm l := by
  cases hi : l.get? i with
  | none =>
    unfold swapL
    rw [hi]
  | some a =>
    cases hj : l.get? j with
    | none =>
      unfold swapL
      rw [hi, hj]
    | some b =>
      unfold swapL
      rw [hi, hj]
      exact set_set_perm l i j a b hi hj

theorem shuffleGo_perm (r : Nat → Nat) :
    ∀ (n : Nat) (l : List Card), (shuffleGo r l n).Perm l
  | 0, l => List.Perm.refl l
  | n + 1, l =>
    (shuffleGo_perm r n _).trans (swapL_perm l (n + 1) (r (n + 1) % (n + 2)))

theorem createDeck_perm (r : Nat → Nat) : (createDeck r).Perm baseDeck :=
  shuffleGo_perm r _ baseDeck

/-! ## Claim C8: freshly created sessions -/

/-- The spec's standard back rank, column-indexed:
{rook, knight, bishop, queen, king, bishop, knight, rook}. -/
def specBackRank : List PieceType :=
  [.rook, .knight, .bishop, .queen, .king, .bishop, .knight, .rook]

/-- The piece the spec's standard starting layout places at cell `(x, y)`
(row 0/1 black back rank/pawns, row 6/7 white pawns/back rank, all other
cells empty), with the piece's `position` field equal to its cell
coordinates.  Stated from the spec's words, to be compared with the board
the source builds. -/
def specPieceAt (x y : Nat) : Option ChessPiece :=
  if y = 0 then
    some { type := specBackRank.getD x .pawn, color := .black,
           position := ((x : Int), (y : Int)) }
  else if y = 1 then
    some { type := .pawn, color := .black, position := ((x : Int), (y : Int)) }
  else if y = 6 then
    some { type := .pawn, color := .white, position := ((x : Int), (y : Int)) }
  else if y = 7 then
    some { type := specBackRank.getD x .pawn, color := .white,
           position := ((x : Int), (y : Int)) }
  else none

/-- The spec's layout property for a board: an 8×8 grid whose every cell
holds exactly the piece of the standard starting layout. -/
def specStandardLayout (b : Board) : Prop :=
  b.length = 8 ∧ (∀ y : Fin 8, (b.getD y.val []).length = 8) ∧
  (∀ x y : Fin 8, boardGet b (x.val : Int) (y.val : Int) =
     some (specPieceAt x.val y.val))

/-- All pieces on a board, row-major. -/
def boardPieces (b : Board) : List ChessPiece :=
  b.flatMap fun row => row.filterMap id

/-- C8: every created session has the standard 32-piece starting board
(16 per color, every piece's `position` equal to its cell), a 52-card deck
with no duplicate (suit, value) pair — for EVERY randomness sequence the
shuffle consumes — empty community cards, `status = waiting` and
`currentTurn = white`. -/
theorem c8_create_session (r : Nat → Nat) (gid : String) :
    (createGame r gid).status = .waiting ∧
    (createGame r gid).currentTurn = .white ∧
    (createGame r gid).communityCards = [] ∧
    specStandardLayout (createGame r gid).board ∧
    (boardPieces (createGame r gid).board).length = 32 ∧
    ((boardPieces (createGame r gid).board).filter fun p =>
       p.color == .white).length = 16 ∧
    ((boardPieces (createGame r gid).board).filter fun p =>
       p.color == .black).length = 16 ∧
    (createGame r gid).deck.length = 52 ∧
    ((createGame r gid).deck.map fun c => (c.suit, c.value)).Nodup := by
  refine ⟨rfl, rfl, rfl, ?_, ?_, ?_, ?_, ?_, ?_⟩
  · dsimp only [createGame]
    unfold specStandardLayout
    decide
  · dsimp only [createGame]
    decide
  · dsimp only [createGame]
    decide
  · dsimp only [createGame]
    decide
  · dsimp only [createGame]
    rw [(createDeck_perm r).length_eq]
    decide
  · dsimp only [createGame]
    rw [List.Perm.nodup_iff ((createDeck_perm r).map fun c => (c.suit, c.value))]
    decide

/-- C8 witness: the theorem at a concrete randomness source and id. -/
theorem c8_witness :
    (createGame (fun _ => 0) "g").status = .waiting ∧
    (createGame (fun _ => 0) "g").deck.length = 52 :=
  have h := c8_create_session (fun _ => 0) "g"
  ⟨h.1, h.2.2.2.2.2.2.2.1⟩
